import Mathlib

/-!
Shallow embedding of the system-monitor report generator (src/main.py).

The script is a one-shot sequence of five collection-and-print passes over an
OS inventory (psutil / platform).  We model the inventory as an explicit record
of collaborator results, each `print(...)` call as one element of a
`List String`, and Python exceptions as `Except` values threaded through each
pass.  Machine floats (the `bytes / 1_000_000` conversions) are modelled as
exact rational arithmetic on the underlying byte counts; two-decimal float
formatting is modelled by round-half-to-even on the exact quotient.
-/

/-- One line of 60 `=` characters, the section banner of the report. -/
def banner : String := String.mk (List.replicate 60 '=')

/-- Result of `platform.system/release/machine/processor` and
`datetime.datetime.now()`, bundled as one inventory call. -/
structure SysInfo where
  system : String
  release : String
  machine : String
  processor : String
  scanTime : String

/-- `psutil.net_io_counters()` snapshot. -/
structure NetCounters where
  bytes_sent : Nat
  bytes_recv : Nat
  packets_sent : Nat
  packets_recv : Nat
  errin : Nat
  errout : Nat

/-- The psutil exceptions caught by the script for per-process lookups. -/
inductive PsFault where
  | noSuchProcess
  | accessDenied
deriving DecidableEq

/-- Faults of `proc.io_counters()`: `AccessDenied` and `AttributeError` are
caught by the inner handler, `NoSuchProcess` escapes to the outer one
(`continue`), which at that point in the loop body has the same effect. -/
inductive IoFault where
  | accessDenied
  | attributeError
  | noSuchProcess
deriving DecidableEq

/-- An `ip:port` endpoint (`conn.laddr` / `conn.raddr`); `none` models the
empty tuple psutil returns when the endpoint is absent. -/
structure Addr where
  ip : String
  port : Nat

/-- One entry of psutil net_connections with kind inet. -/
structure Conn where
  status : String
  pid : Option Nat
  laddr : Option Addr
  raddr : Option Addr

/-- The `proc.info` dict of `psutil.process_iter([...])`.  `cpu_percent` and
`memory_percent` are fetched by the script but never used in any output. -/
structure PInfo where
  pid : Nat
  name : String
  username : String
  cpu_percent : Nat
  memory_percent : Nat
deriving DecidableEq

/-- `proc.io_counters()` result. -/
structure IoCounters where
  read_bytes : Nat
  write_bytes : Nat

/-- A process yielded by `psutil.process_iter`: reading its `info` and its
`io_counters()` can each fail with a psutil exception. -/
structure ProcEntry where
  info : Except PsFault PInfo
  io_counters : Except IoFault IoCounters

/-- The OS inventory collaborator: every external call the script makes.
A top-level `Except.error` models an unexpected exception escaping that call
(anything not caught by a local handler reaches the blanket handler of main). -/
structure Inventory where
  systemInfo : Except String SysInfo
  net_io_counters : Except String NetCounters
  net_connections : Except String (List Conn)
  processLookup : Nat → Except PsFault String
  process_iter : Except String (List ProcEntry)

/-- Round num / den to the nearest integer, half to even: the rounding used
by two-decimal float formatting on an exactly-representable decimal value. -/
def divRoundHalfEven (num den : Nat) : Nat :=
  let q := num / den
  let r := num % den
  if 2 * r < den then q
  else if den < 2 * r then q + 1
  else if q % 2 = 0 then q else q + 1

/-- Two-digit rendering of a number in `[0, 100)`. -/
def pad2 (n : Nat) : String :=
  if n < 10 then "0" ++ toString n else toString n

/-- The byte-to-megabyte rendering: divide by exactly 1,000,000 and print
with two decimal places (exact-rational model of the float computation). -/
def formatMB (bytes : Nat) : String :=
  let centi := divRoundHalfEven (bytes * 100) 1000000
  toString (centi / 100) ++ ("." ++ pad2 (centi % 100))

/-- Python numeric-format right-justification to a given width with spaces. -/
def rightJustify (w : Nat) (s : String) : String :=
  String.mk (List.replicate (w - s.length) ' ') ++ s

/-- Lexicographic comparison of character lists by code point: the order
Python uses to compare strings in `sorted(...)`. -/
def lexLeChars : List Char → List Char → Bool
  | [], _ => true
  | _ :: _, [] => false
  | a :: as, b :: bs => if a < b then true else if b < a then false else lexLeChars as bs

/-- Python string `<=` (code-point lexicographic). -/
def strLe (a b : String) : Bool := lexLeChars a.data b.data

/-- Python `needle in hay` on character lists (contiguous substring). -/
def containsSubList (needle : List Char) : List Char → Bool
  | [] => needle.isEmpty
  | c :: cs => needle.isPrefixOf (c :: cs) || containsSubList needle cs

/-- Python `str.lower()`; the script only meets ASCII process names, so the
ASCII `Char.toLower` mapping is the faithful model. -/
def lowerStr (s : String) : String := String.mk (s.data.map Char.toLower)

/-- The printed text of a connection pid, which may be Python None. -/
def pidStr : Option Nat → String
  | none => "None"
  | some n => toString n

/-- An endpoint rendered as ip colon port, or N/A when absent. -/
def addrStr : Option Addr → String
  | none => "N/A"
  | some a => a.ip ++ (":" ++ toString a.port)

/-- `psutil.Process(conn.pid) if conn.pid else None`, then `process.name() if
process else "Unknown"`.  Python truthiness: both `None` and pid `0` take the
`"Unknown"` branch without any lookup. -/
def resolveProcessName (lookup : Nat → Except PsFault String) : Option Nat → Except PsFault String
  | none => Except.ok "Unknown"
  | some 0 => Except.ok "Unknown"
  | some p => lookup p

/-- One record of `connection_data` in `monitor_network_connections`. -/
structure ConnData where
  process : String
  pid : Option Nat
  localAddr : String
  remoteAddr : String
  status : String
deriving DecidableEq

/-- The filtering loop of `monitor_network_connections`: keep ESTABLISHED
connections, resolve the owning process name, skip the connection when the
lookup raises `NoSuchProcess` or `AccessDenied`. -/
def buildConnectionData (lookup : Nat → Except PsFault String) : List Conn → List ConnData
  | [] => []
  | c :: cs =>
    if c.status == "ESTABLISHED" then
      match resolveProcessName lookup c.pid with
      | Except.error _ => buildConnectionData lookup cs
      | Except.ok name =>
        ⟨name, c.pid, addrStr c.laddr, addrStr c.raddr, c.status⟩ :: buildConnectionData lookup cs
    else buildConnectionData lookup cs

/-- One step of the grouping loop: append the record to the defaultdict
bucket of its process name, modelled as an association list kept in
key-insertion order. -/
def insertConn (acc : List (String × List ConnData)) (c : ConnData) :
    List (String × List ConnData) :=
  if acc.any (fun kv => kv.1 == c.process) then
    acc.map (fun kv => if kv.1 == c.process then (kv.1, kv.2 ++ [c]) else kv)
  else acc ++ [(c.process, [c])]

/-- The grouping loop `for conn in connection_data: ...append(conn)`. -/
def groupByProcess (data : List ConnData) : List (String × List ConnData) :=
  data.foldl insertConn []

/-- `sorted(process_connections.items())`: groups in lexicographic order of
process name (keys are unique, so the tuple comparison never reaches the
unorderable dict values). -/
def sortedGroups (data : List ConnData) : List (String × List ConnData) :=
  (groupByProcess data).mergeSort (fun a b => strLe a.1 b.1)

/-- The group header line: a leading newline, the process name in square
brackets, and the pid of the first member of the group. -/
def connGroupHeader (name : String) (pid : Option Nat) : String :=
  "\n[" ++ (name ++ ("] (PID: " ++ (pidStr pid ++ ")")))

/-- The per-connection line: two spaces, Local, the local endpoint, an arrow,
Remote, the remote endpoint. -/
def connLine (c : ConnData) : String :=
  "  Local: " ++ (c.localAddr ++ (" -> Remote: " ++ c.remoteAddr))

/-- The truncation suffix line: dots, and N more connections. -/
def moreLine (n : Nat) : String :=
  "  ... and " ++ (toString n ++ " more connections")

/-- The final line of the pass: Total active connections, then the count. -/
def totalConnLine (n : Nat) : String :=
  "\nTotal active connections: " ++ toString n

/-- The pid of the first member of a group (every group built by the script
is nonempty). -/
def firstPid (conns : List ConnData) : Option Nat :=
  match conns.head? with
  | some c => c.pid
  | none => none

/-- The print body for one group: header, first 5 connections, and the
`... and N more` suffix when the group holds more than 5. -/
def groupLines (g : String × List ConnData) : List String :=
  connGroupHeader g.1 (firstPid g.2) ::
    ((g.2.take 5).map connLine ++
      (if 5 < g.2.length then [moreLine (g.2.length - 5)] else []))

/-- `monitor_network_connections()`: printed lines plus the exception, if any,
escaping the pass. -/
def monitor_network_connections (inv : Inventory) : List String × Option String :=
  let hdr := [banner, "ACTIVE NETWORK CONNECTIONS", banner]
  match inv.net_connections with
  | Except.error e => (hdr, some e)
  | Except.ok conns =>
    let data := buildConnectionData inv.processLookup conns
    (hdr ++ ((sortedGroups data).flatMap groupLines ++ [totalConnLine data.length, ""]),
     none)

/-- One entry of the `listening` list in `check_listening_ports`. -/
structure ListenEntry where
  process : String
  pid : Option Nat
  port : Nat
  address : String
deriving DecidableEq

/-- The collection loop of `check_listening_ports`.  A LISTEN connection with
an absent local endpoint makes `conn.laddr.port` raise `AttributeError`,
which no local handler catches: the whole pass faults. -/
def buildListening (lookup : Nat → Except PsFault String) : List Conn → Except String (List ListenEntry)
  | [] => Except.ok []
  | c :: cs =>
    if c.status == "LISTEN" then
      match resolveProcessName lookup c.pid with
      | Except.error _ => buildListening lookup cs
      | Except.ok name =>
        match c.laddr with
        | none => Except.error "AttributeError"
        | some a =>
          match buildListening lookup cs with
          | Except.error e => Except.error e
          | Except.ok rest => Except.ok (⟨name, c.pid, a.port, a.ip⟩ :: rest)
    else buildListening lookup cs

/-- One listening-port line: Port, the port right-justified to width 5, the
process name, the pid, and the bind address. -/
def listenLine (en : ListenEntry) : String :=
  "Port " ++ (rightJustify 5 (toString en.port) ++ (" - " ++ (en.process ++
    (" (PID: " ++ (pidStr en.pid ++ (") on " ++ en.address))))))

/-- The final line of the pass: Total listening ports, then the count. -/
def totalListenLine (n : Nat) : String :=
  "\nTotal listening ports: " ++ toString n

/-- The listening list sorted by ascending port number (a stable sort). -/
def sortedListening (l : List ListenEntry) : List ListenEntry :=
  l.mergeSort (fun a b => decide (a.port ≤ b.port))

/-- `check_listening_ports()`. -/
def check_listening_ports (inv : Inventory) : List String × Option String :=
  let hdr := [banner, "LISTENING PORTS (Programs waiting for connections)", banner]
  match inv.net_connections with
  | Except.error e => (hdr, some e)
  | Except.ok conns =>
    match buildListening inv.processLookup conns with
    | Except.error e => (hdr, some e)
    | Except.ok listening =>
      (hdr ++ ((sortedListening listening).map listenLine ++
        [totalListenLine listening.length, ""]), none)

/-- The fixed keyword list of `check_suspicious_processes`. -/
def suspicious_keywords : List String :=
  ["miner", "crypto", "hack", "keylog", "trojan", "rat", "backdoor"]

/-- True when any keyword occurs as a substring of the lowercased process
name. -/
def isSuspiciousName (name : String) : Bool :=
  suspicious_keywords.any (fun kw => containsSubList kw.data (lowerStr name).data)

/-- One entry of the high-network list; read_mb and write_mb are the byte
counts divided by 1,000,000, kept here as the exact numerators. -/
structure HighNetEntry where
  name : String
  pid : Nat
  read_bytes : Nat
  write_bytes : Nat
deriving DecidableEq

/-- The sort key read_mb plus write_mb, scaled by the common denominator
1,000,000 (the scaling preserves all comparisons). -/
def highKey (h : HighNetEntry) : Nat := h.read_bytes + h.write_bytes

/-- The process-iteration loop of `check_suspicious_processes`: first the
name-keyword check appending to the suspicious list, then the I/O-counter
check appending to the high-network list.  `AccessDenied`/`AttributeError`
from `io_counters()` hit the inner `pass`; `NoSuchProcess` escapes to the
outer `continue`; either way the rest of that iteration is skipped. -/
def analyzeProcesses : List ProcEntry → List PInfo × List HighNetEntry
  | [] => ([], [])
  | p :: ps =>
    match p.info with
    | Except.error _ => analyzeProcesses ps
    | Except.ok pinfo =>
      let rest := analyzeProcesses ps
      let susp := if isSuspiciousName pinfo.name then pinfo :: rest.1 else rest.1
      match p.io_counters with
      | Except.ok cnt =>
        if cnt.read_bytes > 10000000 ∨ cnt.write_bytes > 10000000 then
          (susp, ⟨pinfo.name, pinfo.pid, cnt.read_bytes, cnt.write_bytes⟩ :: rest.2)
        else (susp, rest.2)
      | Except.error _ => (susp, rest.2)

/-- The `suspicious_processes` list. -/
def suspiciousOf (ps : List ProcEntry) : List PInfo := (analyzeProcesses ps).1

/-- The `high_network_processes` list. -/
def highNetOf (ps : List ProcEntry) : List HighNetEntry := (analyzeProcesses ps).2

/-- One suspicious-process line: the name, the pid and the username. -/
def suspiciousLine (p : PInfo) : String :=
  "  - " ++ (p.name ++ (" (PID: " ++ (toString p.pid ++ (", User: " ++ (p.username ++ ")")))))

/-- The suspicious-names block: warning header plus one line per entry, or the
all-clear line when the list is empty. -/
def suspiciousLines (ss : List PInfo) : List String :=
  if ss.isEmpty then ["\n✓ No obviously suspicious process names detected"]
  else "\n⚠️  SUSPICIOUS PROCESS NAMES DETECTED:" :: ss.map suspiciousLine

/-- The high-network list sorted descending by total megabytes: Python sorted
with reverse equal True, a stable descending sort. -/
def sortedHigh (hs : List HighNetEntry) : List HighNetEntry :=
  hs.mergeSort (fun a b => decide (highKey b ≤ highKey a))

/-- The first line of a high-network entry: the name and the pid. -/
def highNameLine (h : HighNetEntry) : String :=
  "  - " ++ (h.name ++ (" (PID: " ++ (toString h.pid ++ ")")))

/-- The second line of a high-network entry: read and write megabytes with
two decimals. -/
def highStatsLine (h : HighNetEntry) : String :=
  "    Read: " ++ (formatMB h.read_bytes ++ (" MB, Write: " ++ (formatMB h.write_bytes ++ " MB")))

/-- The high-network block: nothing when the list is empty, else a header and
two lines per entry for the top 10 of the descending sort. -/
def highNetLines (hs : List HighNetEntry) : List String :=
  if hs.isEmpty then []
  else "\n📊 HIGH NETWORK USAGE PROCESSES:" ::
    ((sortedHigh hs).take 10).flatMap (fun h => [highNameLine h, highStatsLine h])

/-- `check_suspicious_processes()`. -/
def check_suspicious_processes (inv : Inventory) : List String × Option String :=
  let hdr := [banner, "RUNNING PROCESSES ANALYSIS", banner]
  match inv.process_iter with
  | Except.error e => (hdr, some e)
  | Except.ok ps =>
    let res := analyzeProcesses ps
    (hdr ++ (suspiciousLines res.1 ++ (highNetLines res.2 ++ [""])), none)

/-- `get_system_info()`. -/
def get_system_info (inv : Inventory) : List String × Option String :=
  let hdr := [banner, "SYSTEM INFORMATION", banner]
  match inv.systemInfo with
  | Except.error e => (hdr, some e)
  | Except.ok s =>
    (hdr ++ ["System: " ++ (s.system ++ (" " ++ s.release)),
             "Machine: " ++ s.machine,
             "Processor: " ++ s.processor,
             "Scan Time: " ++ s.scanTime, ""], none)

/-- `get_network_stats()`. -/
def get_network_stats (inv : Inventory) : List String × Option String :=
  let hdr := [banner, "NETWORK STATISTICS", banner]
  match inv.net_io_counters with
  | Except.error e => (hdr, some e)
  | Except.ok c =>
    (hdr ++ ["Bytes Sent:     " ++ (formatMB c.bytes_sent ++ " MB"),
             "Bytes Received: " ++ (formatMB c.bytes_recv ++ " MB"),
             "Packets Sent:   " ++ toString c.packets_sent,
             "Packets Recv:   " ++ toString c.packets_recv,
             "Errors In:      " ++ toString c.errin,
             "Errors Out:     " ++ toString c.errout, ""], none)

/-- The static recommendations block at the end of the try body of main. -/
def recommendationsLines : List String :=
  [banner, "RECOMMENDATIONS:", banner,
   "1. Review any suspicious process names or unfamiliar programs",
   "2. Check listening ports - ensure you recognize all services",
   "3. Investigate any unexpected high network usage",
   "4. Use Task Manager to see startup programs (Ctrl+Shift+Esc)",
   "5. Run a full antivirus/malware scan with updated definitions",
   "6. Check Windows Firewall settings and rules",
   "\n⚠️  NOTE: This script requires administrator privileges for",
   "   complete process information. Run as admin for best results.",
   banner]

/-- Sequencing of two printing steps: a fault in the first discards the
second, as an uncaught Python exception abandons the rest of the `try` body. -/
def seqPass (a b : List String × Option String) : List String × Option String :=
  match a with
  | (ls, some e) => (ls, some e)
  | (ls, none) => (ls ++ b.1, b.2)

/-- The whole `try` body of `main`: the five passes in order, then the
recommendations block. -/
def runSections (inv : Inventory) : List String × Option String :=
  seqPass (get_system_info inv)
    (seqPass (get_network_stats inv)
      (seqPass (monitor_network_connections inv)
        (seqPass (check_listening_ports inv)
          (seqPass (check_suspicious_processes inv)
            (recommendationsLines, none)))))

/-- The error line printed by the blanket exception handler. -/
def errorLine (e : String) : String :=
  "\n❌ Error during monitoring: " ++ e

/-- The second line of the blanket exception handler. -/
def hintLine : String :=
  "Try running this script as administrator for full access."

/-- `main()`: the intro line, the `try` body, and the blanket
`except Exception` handler printing the error and the hint.  `main` is a total
function into the printed output, which models the script completing normally
(exit code 0) whether or not an internal exception was caught. -/
def mainFn (inv : Inventory) : List String :=
  "\n🔍 SYSTEM SECURITY MONITOR\n" ::
    (match runSections inv with
     | (ls, none) => ls
     | (ls, some e) => ls ++ [errorLine e, hintLine])

/-- Keys of a grouping association list. -/
def keysOf (gs : List (String × List ConnData)) : List String := gs.map Prod.fst

/-- Total number of records held across all groups. -/
def sizeSum (gs : List (String × List ConnData)) : Nat :=
  (gs.map (fun g => g.2.length)).sum

/-! ### Order lemmas for the lexicographic string comparison -/

theorem lexLeChars_trans : ∀ a b c : List Char,
    lexLeChars a b = true → lexLeChars b c = true → lexLeChars a c = true := by
  intro a
  induction a with
  | nil => intro b c _ _; simp [lexLeChars]
  | cons x xs ih =>
    intro b c h1 h2
    cases b with
    | nil => simp [lexLeChars] at h1
    | cons y ys =>
      cases c with
      | nil => simp [lexLeChars] at h2
      | cons z zs =>
        simp only [lexLeChars] at h1 h2 ⊢
        rcases lt_trichotomy x y with hxy | hxy | hxy
        · rcases lt_trichotomy y z with hyz | hyz | hyz
          · simp [lt_trans hxy hyz]
          · subst hyz; simp [hxy]
          · rw [if_neg (not_lt_of_gt hyz), if_pos hyz] at h2; exact absurd h2 (by simp)
        · subst hxy
          rw [if_neg (lt_irrefl x), if_neg (lt_irrefl x)] at h1
          rcases lt_trichotomy x z with hxz | hxz | hxz
          · simp [hxz]
          · subst hxz
            rw [if_neg (lt_irrefl x), if_neg (lt_irrefl x)] at h2 ⊢
            exact ih ys zs h1 h2
          · rw [if_neg (not_lt_of_gt hxz), if_pos hxz] at h2; exact absurd h2 (by simp)
        · rw [if_neg (not_lt_of_gt hxy), if_pos hxy] at h1; exact absurd h1 (by simp)

theorem lexLeChars_total : ∀ a b : List Char,
    (lexLeChars a b || lexLeChars b a) = true := by
  intro a
  induction a with
  | nil => intro b; simp [lexLeChars]
  | cons x xs ih =>
    intro b
    cases b with
    | nil => simp [lexLeChars]
    | cons y ys =>
      simp only [lexLeChars]
      rcases lt_trichotomy x y with h | h | h
      · simp [h]
      · subst h
        simp only [if_neg (lt_irrefl x)]
        exact ih ys
      · simp [h, not_lt_of_gt h]

/-! ### A line beginning with one prefix can never equal a string beginning
with a different character -/

theorem str_append_ne (p x t : String) (hp : p.data ≠ [])
    (h : p.data.head? ≠ t.data.head?) : p ++ x ≠ t := by
  intro he
  apply h
  rw [← he, String.data_append]
  exact (List.head?_append_of_ne_nil _ hp).symm

theorem str_ne_append (p x t : String) (hp : p.data ≠ [])
    (h : p.data.head? ≠ t.data.head?) : t ≠ p ++ x :=
  fun he => str_append_ne p x t hp h he.symm

/-! ### The byte-to-megabyte conversion -/

theorem pad2_zero : pad2 0 = "00" := by decide

theorem formatMB_megabytes (b : Nat) : formatMB (1000000 * b) = toString b ++ ".00" := by
  unfold formatMB divRoundHalfEven
  have h1 : 1000000 * b * 100 = 1000000 * (b * 100) := by ring
  rw [h1, Nat.mul_div_cancel_left _ (by norm_num), Nat.mul_mod_right]
  norm_num
  rw [pad2_zero, show ("." ++ "00" : String) = ".00" by decide]

/-! ### Characterizations of the process-analysis lists -/

/-- The high-network contribution of a single enumerated process. -/
def highPick (p : ProcEntry) : Option HighNetEntry :=
  match p.info, p.io_counters with
  | Except.ok i, Except.ok cnt =>
    if cnt.read_bytes > 10000000 ∨ cnt.write_bytes > 10000000 then
      some ⟨i.name, i.pid, cnt.read_bytes, cnt.write_bytes⟩
    else none
  | _, _ => none

theorem analyzeProcesses_cons_errinfo (p : ProcEntry) (ps : List ProcEntry) (e : PsFault)
    (h : p.info = Except.error e) : analyzeProcesses (p :: ps) = analyzeProcesses ps := by
  simp [analyzeProcesses, h]

theorem analyzeProcesses_cons_ok (p : ProcEntry) (ps : List ProcEntry) (i : PInfo)
    (cnt : IoCounters) (h1 : p.info = Except.ok i) (h2 : p.io_counters = Except.ok cnt) :
    analyzeProcesses (p :: ps) =
      ((if isSuspiciousName i.name then i :: (analyzeProcesses ps).1 else (analyzeProcesses ps).1),
       (if cnt.read_bytes > 10000000 ∨ cnt.write_bytes > 10000000 then
          ⟨i.name, i.pid, cnt.read_bytes, cnt.write_bytes⟩ :: (analyzeProcesses ps).2
        else (analyzeProcesses ps).2)) := by
  by_cases hc : cnt.read_bytes > 10000000 ∨ cnt.write_bytes > 10000000 <;>
    simp [analyzeProcesses, h1, h2, hc]

theorem analyzeProcesses_cons_errio (p : ProcEntry) (ps : List ProcEntry) (i : PInfo)
    (e : IoFault) (h1 : p.info = Except.ok i) (h2 : p.io_counters = Except.error e) :
    analyzeProcesses (p :: ps) =
      ((if isSuspiciousName i.name then i :: (analyzeProcesses ps).1 else (analyzeProcesses ps).1),
       (analyzeProcesses ps).2) := by
  simp [analyzeProcesses, h1, h2]

theorem suspiciousOf_eq (ps : List ProcEntry) :
    suspiciousOf ps =
      (ps.filterMap (fun p => p.info.toOption)).filter (fun i => isSuspiciousName i.name) := by
  induction ps with
  | nil => rfl
  | cons p ps ih =>
    have hstep : List.filterMap (fun p => p.info.toOption) (p :: ps) =
        (p.info.toOption.toList) ++ List.filterMap (fun p => p.info.toOption) ps := by
      cases h : p.info <;> simp [List.filterMap_cons, h, Except.toOption]
    rw [hstep, List.filter_append]
    cases hinfo : p.info with
    | error e =>
      rw [suspiciousOf, analyzeProcesses_cons_errinfo p ps e hinfo]
      simp [hinfo, Except.toOption, suspiciousOf] at ih ⊢
      exact ih
    | ok i =>
      have hsusp : suspiciousOf (p :: ps) =
          (if isSuspiciousName i.name then i :: suspiciousOf ps else suspiciousOf ps) := by
        cases hio : p.io_counters with
        | ok cnt =>
          rw [suspiciousOf, analyzeProcesses_cons_ok p ps i cnt hinfo hio]
          rfl
        | error e =>
          rw [suspiciousOf, analyzeProcesses_cons_errio p ps i e hinfo hio]
          rfl
      rw [hsusp, ih]
      by_cases hname : isSuspiciousName i.name <;>
        simp [hinfo, Except.toOption, hname, List.filter_cons]

theorem highNetOf_eq (ps : List ProcEntry) :
    highNetOf ps = ps.filterMap highPick := by
  induction ps with
  | nil => rfl
  | cons p ps ih =>
    have hstep : List.filterMap highPick (p :: ps) =
        (highPick p).toList ++ List.filterMap highPick ps := by
      cases h : highPick p <;> simp [List.filterMap_cons, h]
    rw [hstep]
    cases hinfo : p.info with
    | error e =>
      rw [highNetOf, analyzeProcesses_cons_errinfo p ps e hinfo]
      have : highPick p = none := by unfold highPick; rw [hinfo]
      simp [this, highNetOf] at ih ⊢
      exact ih
    | ok i =>
      cases hio : p.io_counters with
      | ok cnt =>
        rw [highNetOf, analyzeProcesses_cons_ok p ps i cnt hinfo hio]
        have : highPick p =
            (if cnt.read_bytes > 10000000 ∨ cnt.write_bytes > 10000000 then
              some ⟨i.name, i.pid, cnt.read_bytes, cnt.write_bytes⟩ else none) := by
          unfold highPick; rw [hinfo, hio]
        rw [this]
        by_cases hc : cnt.read_bytes > 10000000 ∨ cnt.write_bytes > 10000000 <;>
          simp [hc, highNetOf] <;> exact ih
      | error e =>
        rw [highNetOf, analyzeProcesses_cons_errio p ps i e hinfo hio]
        have : highPick p = none := by
          unfold highPick; rw [hinfo, hio]
        simp [this, highNetOf]
        exact ih

/-! ### Properties of the defaultdict grouping -/

theorem keysOf_insertConn (acc : List (String × List ConnData)) (c : ConnData) :
    keysOf (insertConn acc c) =
      if acc.any (fun kv => kv.1 == c.process) then keysOf acc
      else keysOf acc ++ [c.process] := by
  unfold insertConn keysOf
  split
  · rw [List.map_map]
    apply List.map_congr_left
    intro kv _
    simp only [Function.comp]
    split <;> rfl
  · simp

theorem any_key_iff (acc : List (String × List ConnData)) (p : String) :
    (acc.any (fun kv => kv.1 == p) = true) ↔ p ∈ keysOf acc := by
  simp only [List.any_eq_true, keysOf, List.mem_map, beq_iff_eq]

theorem nodup_keysOf_insertConn (acc : List (String × List ConnData)) (c : ConnData)
    (h : (keysOf acc).Nodup) : (keysOf (insertConn acc c)).Nodup := by
  rw [keysOf_insertConn]
  split
  · exact h
  · rename_i hany
    have hnot : c.process ∉ keysOf acc := by
      rw [← any_key_iff]
      simp [hany]
    simp [List.nodup_append, h, hnot]

theorem map_upd_of_not_mem (acc : List (String × List ConnData)) (c : ConnData)
    (h : c.process ∉ keysOf acc) :
    acc.map (fun kv => if kv.1 == c.process then (kv.1, kv.2 ++ [c]) else kv) = acc := by
  induction acc with
  | nil => rfl
  | cons kv rest ih =>
    simp only [keysOf, List.map_cons, List.mem_cons, not_or] at h ⊢
    have h1 : ¬(kv.1 == c.process) = true := by
      simp only [beq_iff_eq]
      exact fun he => h.1 he.symm
    rw [if_neg h1, ih (by simpa [keysOf] using h.2)]

theorem sizeSum_cons (kv : String × List ConnData) (rest : List (String × List ConnData)) :
    sizeSum (kv :: rest) = kv.2.length + sizeSum rest := by
  simp [sizeSum]

theorem sizeSum_insertConn (acc : List (String × List ConnData)) (c : ConnData)
    (h : (keysOf acc).Nodup) : sizeSum (insertConn acc c) = sizeSum acc + 1 := by
  unfold insertConn
  split
  · rename_i hany
    induction acc with
    | nil => simp at hany
    | cons kv rest ih =>
      have hk : (keysOf (kv :: rest)).Nodup := h
      simp only [keysOf, List.map_cons, List.nodup_cons] at hk
      by_cases hkv : (kv.1 == c.process) = true
      · have hcp : c.process ∉ keysOf rest := by
          rw [beq_iff_eq] at hkv
          rw [← hkv]
          simpa [keysOf] using hk.1
        simp only [List.map_cons, if_pos hkv]
        rw [map_upd_of_not_mem rest c hcp, sizeSum_cons, sizeSum_cons]
        simp
        omega
      · have hany2 : rest.any (fun kv => kv.1 == c.process) = true := by
          simp only [List.any_cons, hkv, Bool.false_or] at hany
          exact hany
        simp only [List.map_cons, if_neg hkv]
        rw [sizeSum_cons, sizeSum_cons, ih (by simpa [keysOf] using hk.2) hany2]
        omega
  · simp [sizeSum]

theorem groupFold_inv : ∀ (data : List ConnData) (acc : List (String × List ConnData)),
    (keysOf acc).Nodup →
    (keysOf (data.foldl insertConn acc)).Nodup ∧
      sizeSum (data.foldl insertConn acc) = sizeSum acc + data.length := by
  intro data
  induction data with
  | nil => intro acc h; simpa using h
  | cons c cs ih =>
    intro acc h
    simp only [List.foldl_cons, List.length_cons]
    obtain ⟨h1, h2⟩ := ih (insertConn acc c) (nodup_keysOf_insertConn acc c h)
    refine ⟨h1, ?_⟩
    rw [h2, sizeSum_insertConn acc c h]
    omega

theorem groupByProcess_keys_nodup (data : List ConnData) :
    (keysOf (groupByProcess data)).Nodup :=
  (groupFold_inv data [] (by simp [keysOf])).1

theorem groupByProcess_sizeSum (data : List ConnData) :
    sizeSum (groupByProcess data) = data.length := by
  have := (groupFold_inv data [] (by simp [keysOf])).2
  simpa [sizeSum] using this

theorem insertConn_filter_inv (acc : List (String × List ConnData)) (c : ConnData)
    (processed : List ConnData)
    (h2 : ∀ kv ∈ acc, kv.2 = processed.filter (fun d => d.process == kv.1))
    (h3 : ∀ d ∈ processed, d.process ∈ keysOf acc) :
    (∀ kv ∈ insertConn acc c,
      kv.2 = (processed ++ [c]).filter (fun d => d.process == kv.1)) ∧
    (∀ d ∈ processed ++ [c], d.process ∈ keysOf (insertConn acc c)) := by
  constructor
  · intro kv hkv
    unfold insertConn at hkv
    by_cases hany : (acc.any fun kv => kv.1 == c.process) = true
    · rw [if_pos hany] at hkv
      obtain ⟨kv0, hkv0, rfl⟩ := List.mem_map.1 hkv
      by_cases hk : (kv0.1 == c.process) = true
      · rw [if_pos hk]
        simp only [List.filter_append]
        rw [beq_iff_eq] at hk
        have : List.filter (fun d => d.process == kv0.1) [c] = [c] := by
          simp [List.filter_cons, hk]
        rw [this, ← h2 kv0 hkv0]
      · rw [if_neg hk]
        simp only [List.filter_append]
        rw [beq_iff_eq] at hk
        have : List.filter (fun d => d.process == kv0.1) [c] = [] := by
          simp only [List.filter_cons, List.filter_nil]
          rw [if_neg]
          simp only [beq_iff_eq]
          exact fun he => hk he.symm
        rw [this, List.append_nil]
        exact h2 kv0 hkv0
    · rw [if_neg hany] at hkv
      have hnot : c.process ∉ keysOf acc := by
        rw [← any_key_iff]
        simpa using hany
      rcases List.mem_append.1 hkv with hold | hnew
      · have hne : kv.1 ≠ c.process := by
          intro he
          exact hnot (he ▸ (List.mem_map.2 ⟨kv, hold, rfl⟩))
        simp only [List.filter_append]
        have : List.filter (fun d => d.process == kv.1) [c] = [] := by
          simp only [List.filter_cons, List.filter_nil]
          rw [if_neg]
          simp only [beq_iff_eq]
          exact fun he => hne he.symm
        rw [this, List.append_nil]
        exact h2 kv hold
      · have hkv' : kv = (c.process, [c]) := by simpa using hnew
        subst hkv'
        simp only [List.filter_append]
        have hfp : List.filter (fun d => d.process == c.process) processed = [] := by
          rw [List.filter_eq_nil_iff]
          intro d hd
          simp only [beq_iff_eq]
          intro he
          exact hnot (he ▸ h3 d hd)
        have : List.filter (fun d => d.process == c.process) [c] = [c] := by
          simp [List.filter_cons]
        rw [hfp, this]
        rfl
  · intro d hd
    rw [keysOf_insertConn]
    rcases List.mem_append.1 hd with hold | hnew
    · split
      · exact h3 d hold
      · exact List.mem_append.2 (Or.inl (h3 d hold))
    · have : d = c := by simpa using hnew
      subst this
      split
      · rename_i hany
        exact (any_key_iff acc d.process).1 hany
      · simp

theorem groupFold_filter : ∀ (data : List ConnData) (acc : List (String × List ConnData))
    (processed : List ConnData),
    (∀ kv ∈ acc, kv.2 = processed.filter (fun d => d.process == kv.1)) →
    (∀ d ∈ processed, d.process ∈ keysOf acc) →
    (∀ kv ∈ data.foldl insertConn acc,
      kv.2 = (processed ++ data).filter (fun d => d.process == kv.1)) ∧
    (∀ d ∈ processed ++ data, d.process ∈ keysOf (data.foldl insertConn acc)) := by
  intro data
  induction data with
  | nil =>
    intro acc processed h2 h3
    simp only [List.foldl_nil, List.append_nil]
    exact ⟨h2, h3⟩
  | cons c cs ih =>
    intro acc processed h2 h3
    obtain ⟨s2, s3⟩ := insertConn_filter_inv acc c processed h2 h3
    have := ih (insertConn acc c) (processed ++ [c]) s2 s3
    simpa [List.append_assoc] using this

theorem groupByProcess_filter (data : List ConnData) :
    ∀ kv ∈ groupByProcess data, kv.2 = data.filter (fun d => d.process == kv.1) := by
  have := (groupFold_filter data [] [] (by simp) (by simp)).1
  simpa using this

theorem groupByProcess_keys_cover (data : List ConnData) :
    ∀ d ∈ data, d.process ∈ keysOf (groupByProcess data) := by
  have := (groupFold_filter data [] [] (by simp) (by simp)).2
  simpa using this

theorem groupFold_nonempty : ∀ (data : List ConnData) (acc : List (String × List ConnData)),
    (∀ kv ∈ acc, kv.2 ≠ []) → ∀ kv ∈ data.foldl insertConn acc, kv.2 ≠ [] := by
  intro data
  induction data with
  | nil => intro acc h; simpa using h
  | cons c cs ih =>
    intro acc h
    simp only [List.foldl_cons]
    apply ih
    intro kv hkv
    unfold insertConn at hkv
    split at hkv
    · obtain ⟨kv0, hkv0, rfl⟩ := List.mem_map.1 hkv
      split
      · simp
      · exact h kv0 hkv0
    · rcases List.mem_append.1 hkv with hold | hnew
      · exact h kv hold
      · have : kv = (c.process, [c]) := by simpa using hnew
        subst this
        simp

theorem groupByProcess_nonempty (data : List ConnData) :
    ∀ kv ∈ groupByProcess data, kv.2 ≠ [] :=
  groupFold_nonempty data [] (by simp)

/-! ### The sorted group list -/

theorem sortedGroups_perm (data : List ConnData) :
    (sortedGroups data).Perm (groupByProcess data) :=
  List.mergeSort_perm (groupByProcess data) (fun a b => strLe a.1 b.1)

theorem sortedGroups_pairwise (data : List ConnData) :
    List.Pairwise (fun a b => strLe a.1 b.1 = true ∧ a.1 ≠ b.1) (sortedGroups data) := by
  have hsorted : List.Pairwise (fun a b : String × List ConnData => strLe a.1 b.1 = true)
      (sortedGroups data) := by
    apply List.sorted_mergeSort
    · intro a b c h1 h2
      exact lexLeChars_trans _ _ _ h1 h2
    · intro a b
      exact lexLeChars_total _ _
  have hnodup : (keysOf (sortedGroups data)).Nodup :=
    ((sortedGroups_perm data).map Prod.fst).symm.nodup (groupByProcess_keys_nodup data)
  have hne : List.Pairwise (fun a b : String × List ConnData => a.1 ≠ b.1) (sortedGroups data) :=
    (List.pairwise_map).1 hnodup
  exact hsorted.and hne

theorem sortedGroups_filter (data : List ConnData) :
    ∀ kv ∈ sortedGroups data, kv.2 = data.filter (fun d => d.process == kv.1) :=
  fun kv hkv => groupByProcess_filter data kv ((sortedGroups_perm data).subset hkv)

theorem sortedGroups_nonempty (data : List ConnData) :
    ∀ kv ∈ sortedGroups data, kv.2 ≠ [] :=
  fun kv hkv => groupByProcess_nonempty data kv ((sortedGroups_perm data).subset hkv)

theorem sortedGroups_sizeSum (data : List ConnData) :
    sizeSum (sortedGroups data) = data.length := by
  have hperm := (sortedGroups_perm data).map (fun g => g.2.length)
  have := hperm.sum_eq
  unfold sizeSum
  rw [this]
  exact groupByProcess_sizeSum data

/-! ### Distinguishing the format-line families -/

theorem str_append_ne_take (p q x y : String) (k : Nat) (hk1 : k ≤ p.data.length)
    (hk2 : k ≤ q.data.length) (h : p.data.take k ≠ q.data.take k) : p ++ x ≠ q ++ y := by
  intro he
  apply h
  have h1 : (p ++ x).data.take k = p.data.take k := by
    rw [String.data_append]
    exact List.take_append_of_le_length hk1
  have h2 : (q ++ y).data.take k = q.data.take k := by
    rw [String.data_append]
    exact List.take_append_of_le_length hk2
  rw [← h1, he, h2]

theorem moreLine_ne_connLine (n : Nat) (c : ConnData) : moreLine n ≠ connLine c := by
  apply str_append_ne_take "  ... and " "  Local: " _ _ 3
  · decide
  · decide
  · decide

theorem moreLine_ne_header (n : Nat) (name : String) (pid : Option Nat) :
    moreLine n ≠ connGroupHeader name pid := by
  apply str_append_ne_take "  ... and " "\n[" _ _ 1
  · decide
  · decide
  · decide

/-- C1: In the Active Connections pass, groups are printed in lexicographic
order of process name; each group holds exactly the records of that name,
is nonempty, prints the header (name and first member pid), at most 5
connection lines, and a single "... and N more" suffix exactly when the group
has more than 5 members, with N = count - 5; and the group sizes over all
printed groups sum to the full record count, which is the printed total
(before any per-group truncation). -/
theorem active_connections_grouping (data : List ConnData) (g : String × List ConnData)
    (hg : g ∈ sortedGroups data) :
    List.Pairwise (fun a b => strLe a.1 b.1 = true ∧ a.1 ≠ b.1) (sortedGroups data) ∧
    g.2 = data.filter (fun d => d.process == g.1) ∧
    g.2 ≠ [] ∧
    (groupLines g).head? = some (connGroupHeader g.1 (firstPid g.2)) ∧
    ((g.2.take 5).map connLine).length = min 5 g.2.length ∧
    (5 < g.2.length →
      groupLines g =
        (connGroupHeader g.1 (firstPid g.2) :: (g.2.take 5).map connLine) ++
          [moreLine (g.2.length - 5)]) ∧
    (¬ 5 < g.2.length →
      groupLines g = connGroupHeader g.1 (firstPid g.2) :: g.2.map connLine ∧
        ∀ n, moreLine n ∉ groupLines g) ∧
    sizeSum (sortedGroups data) = data.length := by
  refine ⟨sortedGroups_pairwise data, sortedGroups_filter data g hg,
    sortedGroups_nonempty data g hg, rfl, by simp [List.length_take], ?_, ?_,
    sortedGroups_sizeSum data⟩
  · intro h5
    simp [groupLines, h5]
  · intro h5
    have htake : g.2.take 5 = g.2 := List.take_of_length_le (by omega)
    constructor
    · simp [groupLines, h5, htake]
    · intro n hmem
      simp only [groupLines, if_neg h5, List.append_nil, List.mem_cons] at hmem
      rcases hmem with hh | hm
      · exact moreLine_ne_header n g.1 (firstPid g.2) hh
      · obtain ⟨c, _, hc⟩ := List.mem_map.1 hm
        exact moreLine_ne_connLine n c hc.symm

/-- Demo record: one of the 7 "chrome" ESTABLISHED connections. -/
def chromeRec (k : Nat) : ConnData :=
  ⟨"chrome", some 100, "10.0.0.1:" ++ toString k, "93.184.216.34:443", "ESTABLISHED"⟩

/-- Demo record: one of the 2 "ssh" ESTABLISHED connections. -/
def sshRec : ConnData :=
  ⟨"ssh", some 200, "10.0.0.1:22", "10.0.0.2:50000", "ESTABLISHED"⟩

/-- 7 chrome records followed by 2 ssh records. -/
def demoData : List ConnData := (List.range 7).map chromeRec ++ [sshRec, sshRec]

/-- The "chrome" group of `demoData`. -/
def gChrome : String × List ConnData := ("chrome", (List.range 7).map chromeRec)

unseal List.merge List.mergeSort in
theorem active_connections_grouping_witness :
    (List.Pairwise (fun a b => strLe a.1 b.1 = true ∧ a.1 ≠ b.1) (sortedGroups demoData) ∧
    gChrome.2 = demoData.filter (fun d => d.process == gChrome.1) ∧
    gChrome.2 ≠ [] ∧
    (groupLines gChrome).head? = some (connGroupHeader gChrome.1 (firstPid gChrome.2)) ∧
    ((gChrome.2.take 5).map connLine).length = min 5 gChrome.2.length ∧
    (5 < gChrome.2.length →
      groupLines gChrome =
        (connGroupHeader gChrome.1 (firstPid gChrome.2) :: (gChrome.2.take 5).map connLine) ++
          [moreLine (gChrome.2.length - 5)]) ∧
    (¬ 5 < gChrome.2.length →
      groupLines gChrome = connGroupHeader gChrome.1 (firstPid gChrome.2) :: gChrome.2.map connLine ∧
        ∀ n, moreLine n ∉ groupLines gChrome) ∧
    sizeSum (sortedGroups demoData) = demoData.length) ∧
    (sortedGroups demoData).map (fun g => (g.1, g.2.length)) = [("chrome", 7), ("ssh", 2)] ∧
    moreLine (gChrome.2.length - 5) = "  ... and 2 more connections" ∧
    totalConnLine demoData.length = "\nTotal active connections: 9" :=
  ⟨active_connections_grouping demoData gChrome (by decide), by decide, by decide, by decide⟩

/-- C4: every enumerated process is matched case-insensitively as a substring
against the fixed keyword set; a matching process enters the suspicious list
exactly once even when several keywords match, and the list preserves
first-seen enumeration order (it is the order-preserving filter of the
readable process infos). -/
theorem suspicious_name_matching (ps : List ProcEntry) :
    suspiciousOf ps =
      (ps.filterMap (fun p => p.info.toOption)).filter (fun i => isSuspiciousName i.name) ∧
    (suspiciousOf ps).Sublist (ps.filterMap (fun p => p.info.toOption)) ∧
    isSuspiciousName "CryptoMiner.exe" = true ∧
    containsSubList "crypto".data (lowerStr "CryptoMiner.exe").data = true ∧
    containsSubList "miner".data (lowerStr "CryptoMiner.exe").data = true ∧
    suspiciousOf
        [⟨Except.ok ⟨7, "CryptoMiner.exe", "root", 0, 0⟩, Except.error IoFault.accessDenied⟩] =
      [⟨7, "CryptoMiner.exe", "root", 0, 0⟩] := by
  refine ⟨suspiciousOf_eq ps, ?_, by decide, by decide, by decide, by decide⟩
  rw [suspiciousOf_eq ps]
  exact List.filter_sublist _

/-- C5: a process with readable I/O counters is added to the high-network list
if and only if read bytes > 10,000,000 or write bytes > 10,000,000, with
strict inequality: exactly 10,000,000 read and 0 written is not flagged,
10,000,001 read is flagged. -/
theorem high_network_threshold (ps : List ProcEntry) :
    highNetOf ps = ps.filterMap highPick ∧
    (∀ (i : PInfo) (cnt : IoCounters),
      highPick ⟨Except.ok i, Except.ok cnt⟩ =
        if cnt.read_bytes > 10000000 ∨ cnt.write_bytes > 10000000 then
          some ⟨i.name, i.pid, cnt.read_bytes, cnt.write_bytes⟩
        else none) ∧
    highNetOf [⟨Except.ok ⟨1, "worker", "u", 0, 0⟩, Except.ok ⟨10000000, 0⟩⟩] = [] ∧
    highNetOf [⟨Except.ok ⟨1, "worker", "u", 0, 0⟩, Except.ok ⟨10000001, 0⟩⟩] =
      [⟨"worker", 1, 10000001, 0⟩] :=
  ⟨highNetOf_eq ps, fun i cnt => rfl, by decide, by decide⟩

/-- C8: every byte-to-megabyte conversion in the report divides by exactly
1,000,000 and renders with 2 decimal places: exact multiples of 1,000,000
render as the megabyte count followed by ".00" (so 10,000,000 bytes prints
"10.00"), and powers of 1,048,576 do not land on round values (ruling out a
binary divisor), both in the interface statistics and in the per-process
high-network lines. -/
theorem mb_conversion (b : Nat) :
    formatMB (1000000 * b) = toString b ++ ".00" ∧
    formatMB 10000000 = "10.00" ∧
    formatMB 1048576 = "1.05" ∧
    formatMB 10485760 = "10.49" ∧
    (get_network_stats ⟨Except.error "x", Except.ok ⟨10000000, 2500000, 3, 4, 0, 0⟩,
        Except.error "x", fun _ => Except.error PsFault.noSuchProcess, Except.error "x"⟩).1 =
      [banner, "NETWORK STATISTICS", banner,
       "Bytes Sent:     10.00 MB", "Bytes Received: 2.50 MB",
       "Packets Sent:   3", "Packets Recv:   4",
       "Errors In:      0", "Errors Out:     0", ""] ∧
    highStatsLine ⟨"worker", 1, 10000000, 2500000⟩ = "    Read: 10.00 MB, Write: 2.50 MB" :=
  ⟨formatMB_megabytes b, by decide, by decide, by decide, by decide, by decide⟩

/-! ### The high-network descending sort -/

theorem highLe_trans : ∀ a b c : HighNetEntry,
    decide (highKey b ≤ highKey a) = true → decide (highKey c ≤ highKey b) = true →
      decide (highKey c ≤ highKey a) = true := by
  intro a b c h1 h2
  simp only [decide_eq_true_eq] at h1 h2 ⊢
  omega

theorem highLe_total : ∀ a b : HighNetEntry,
    (decide (highKey b ≤ highKey a) || decide (highKey a ≤ highKey b)) = true := by
  intro a b
  rcases Nat.le_total (highKey a) (highKey b) with h | h <;> simp [h]

theorem length_pairLines (l : List HighNetEntry) :
    (l.flatMap (fun h => [highNameLine h, highStatsLine h])).length = 2 * l.length := by
  induction l with
  | nil => rfl
  | cons h t ih =>
    simp only [List.flatMap_cons, List.length_append, List.length_cons, ih]
    simp
    omega

/-- C6: the printed high-network entries are the high-network list sorted
descending by total (read + write) megabytes, truncated to at most 10 entries
(so 15 qualifying processes print exactly 10, two lines each); the selection
is a permutation-based reordering, deterministic, and stable: two entries with
equal keys keep their original relative order in the sorted list. -/
theorem high_network_top10 (hs : List HighNetEntry) :
    ((sortedHigh hs).take 10).length = min 10 hs.length ∧
    List.Pairwise (fun a b => highKey b ≤ highKey a) ((sortedHigh hs).take 10) ∧
    (sortedHigh hs).Perm hs ∧
    (∀ a b : HighNetEntry, [a, b].Sublist hs → highKey a = highKey b →
      [a, b].Sublist (sortedHigh hs)) ∧
    (hs ≠ [] → (highNetLines hs).length = 1 + 2 * min 10 hs.length) := by
  refine ⟨?_, ?_, List.mergeSort_perm hs _, ?_, ?_⟩
  · simp [sortedHigh, List.length_take, List.length_mergeSort]
  · have hall : List.Pairwise
        (fun a b : HighNetEntry => (decide (highKey b ≤ highKey a)) = true) (sortedHigh hs) :=
      List.sorted_mergeSort highLe_trans highLe_total hs
    have := hall.sublist (List.take_sublist 10 (sortedHigh hs))
    exact this.imp (fun h => by simpa using h)
  · intro a b hsub heq
    apply List.sublist_mergeSort highLe_trans highLe_total _ hsub
    simp [List.pairwise_cons, heq]
  · intro hne
    have hfalse : hs.isEmpty = false := by
      cases hs with
      | nil => exact absurd rfl hne
      | cons a t => rfl
    simp only [highNetLines, hfalse, Bool.false_eq_true, if_false, List.length_cons,
      length_pairLines, List.length_take, List.length_mergeSort, sortedHigh]
    omega

/-! ### The listening-port ascending sort -/

theorem portLe_trans : ∀ a b c : ListenEntry,
    decide (a.port ≤ b.port) = true → decide (b.port ≤ c.port) = true →
      decide (a.port ≤ c.port) = true := by
  intro a b c h1 h2
  simp only [decide_eq_true_eq] at h1 h2 ⊢
  omega

theorem portLe_total : ∀ a b : ListenEntry,
    (decide (a.port ≤ b.port) || decide (b.port ≤ a.port)) = true := by
  intro a b
  rcases Nat.le_total a.port b.port with h | h <;> simp [h]

unseal List.merge List.mergeSort in
/-- C7: the Listening Ports pass prints the collected entries in ascending
order of port number (ports [443, 8080, 22] print as 22, 443, 8080), one line
per entry with the port right-justified to width 5, and the printed line
count (and the printed total) equals the number of collected entries. -/
theorem listening_ports_sorted (entries : List ListenEntry) :
    List.Pairwise (fun a b => a.port ≤ b.port) (sortedListening entries) ∧
    (sortedListening entries).Perm entries ∧
    ((sortedListening entries).map listenLine).length = entries.length ∧
    (sortedListening
        [⟨"nginx", some 1, 443, "0.0.0.0"⟩, ⟨"java", some 2, 8080, "0.0.0.0"⟩,
         ⟨"sshd", some 3, 22, "0.0.0.0"⟩]).map (fun en => en.port) = [22, 443, 8080] ∧
    listenLine ⟨"sshd", some 3, 22, "0.0.0.0"⟩ = "Port    22 - sshd (PID: 3) on 0.0.0.0" ∧
    rightJustify 5 "22" = "   22" := by
  refine ⟨?_, List.mergeSort_perm entries _, ?_, by decide, by decide, by decide⟩
  · have hall : List.Pairwise
        (fun a b : ListenEntry => (decide (a.port ≤ b.port)) = true) (sortedListening entries) :=
      List.sorted_mergeSort portLe_trans portLe_total entries
    exact hall.imp (fun h => by simpa using h)
  · simp [List.length_mergeSort, sortedListening]

/-- C9: a process whose I/O-counter lookup fails with access denied (or whose
platform lacks the counters) is silently excluded from the high-network list
only: no error propagates out of the pass, and the process still enters the
suspicious list exactly when its name matches a keyword. -/
theorem io_failure_skip (pre post : List ProcEntry) (p : ProcEntry) (i : PInfo)
    (hinfo : p.info = Except.ok i)
    (hio : p.io_counters = Except.error IoFault.accessDenied ∨
      p.io_counters = Except.error IoFault.attributeError) :
    highNetOf (pre ++ p :: post) = highNetOf pre ++ highNetOf post ∧
    suspiciousOf (pre ++ p :: post) =
      suspiciousOf pre ++ ((if isSuspiciousName i.name then [i] else []) ++ suspiciousOf post) ∧
    (∀ (inv : Inventory) (ps : List ProcEntry), inv.process_iter = Except.ok ps →
      (check_suspicious_processes inv).2 = none) := by
  have hpick : highPick p = none := by
    unfold highPick
    rcases hio with h | h <;> rw [hinfo, h]
  refine ⟨?_, ?_, ?_⟩
  · rw [highNetOf_eq, highNetOf_eq, highNetOf_eq, List.filterMap_append, List.filterMap_cons,
      hpick]
  · have hstep : List.filterMap (fun q => q.info.toOption) (p :: post) =
        i :: List.filterMap (fun q => q.info.toOption) post := by
      simp [List.filterMap_cons, hinfo, Except.toOption]
    rw [suspiciousOf_eq, suspiciousOf_eq, suspiciousOf_eq, List.filterMap_append, hstep,
      List.filter_append, List.filter_cons]
    by_cases hname : isSuspiciousName i.name <;> simp [hname]
  · intro inv ps h
    simp [check_suspicious_processes, h]

/-- A process whose I/O-counter read raises access denied. -/
def pDenied : ProcEntry :=
  ⟨Except.ok ⟨5, "CryptoMiner.exe", "root", 0, 0⟩, Except.error IoFault.accessDenied⟩

/-- A process with readable counters above the threshold. -/
def pBig : ProcEntry := ⟨Except.ok ⟨6, "bigproc", "u", 0, 0⟩, Except.ok ⟨20000000, 0⟩⟩

theorem io_failure_skip_witness :
    highNetOf ([] ++ pDenied :: [pBig]) = highNetOf [] ++ highNetOf [pBig] ∧
    suspiciousOf ([] ++ pDenied :: [pBig]) =
      suspiciousOf [] ++
        ((if isSuspiciousName (PInfo.mk 5 "CryptoMiner.exe" "root" 0 0).name then
            [PInfo.mk 5 "CryptoMiner.exe" "root" 0 0] else []) ++ suspiciousOf [pBig]) ∧
    (∀ (inv : Inventory) (ps : List ProcEntry), inv.process_iter = Except.ok ps →
      (check_suspicious_processes inv).2 = none) :=
  io_failure_skip [] [pBig] pDenied ⟨5, "CryptoMiner.exe", "root", 0, 0⟩ rfl (Or.inl rfl)

/-- C10: an ESTABLISHED or LISTEN connection whose owning process id is absent
is not skipped: it is included with process name "Unknown", counted, and (for
Active Connections) grouped under the "Unknown" key. -/
theorem unknown_pid_included (lookup : Nat → Except PsFault String) (c d : Conn)
    (cs ds : List Conn) (a : Addr)
    (hc1 : c.status = "ESTABLISHED") (hc2 : c.pid = none)
    (hd1 : d.status = "LISTEN") (hd2 : d.pid = none) (hd3 : d.laddr = some a) :
    buildConnectionData lookup (c :: cs) =
      ⟨"Unknown", none, addrStr c.laddr, addrStr c.raddr, c.status⟩ ::
        buildConnectionData lookup cs ∧
    (buildConnectionData lookup (c :: cs)).length =
      (buildConnectionData lookup cs).length + 1 ∧
    (∀ (data : List ConnData) (r : ConnData), r ∈ data → r.process = "Unknown" →
      ∃ kv ∈ groupByProcess data, kv.1 = "Unknown" ∧ r ∈ kv.2) ∧
    buildListening lookup (d :: ds) =
      (match buildListening lookup ds with
       | Except.error e => Except.error e
       | Except.ok rest => Except.ok (⟨"Unknown", none, a.port, a.ip⟩ :: rest)) := by
  have hbc : buildConnectionData lookup (c :: cs) =
      ⟨"Unknown", none, addrStr c.laddr, addrStr c.raddr, c.status⟩ ::
        buildConnectionData lookup cs := by
    simp [buildConnectionData, hc1, hc2, resolveProcessName]
  refine ⟨hbc, by rw [hbc]; rfl, ?_, ?_⟩
  · intro data r hr hname
    have hkey : "Unknown" ∈ keysOf (groupByProcess data) :=
      hname ▸ groupByProcess_keys_cover data r hr
    obtain ⟨kv, hkv, hk⟩ := List.mem_map.1 hkey
    refine ⟨kv, hkv, hk, ?_⟩
    rw [groupByProcess_filter data kv hkv]
    exact List.mem_filter.2 ⟨hr, by simp [hname, hk]⟩
  · simp [buildListening, hd1, hd2, hd3, resolveProcessName]

/-- An ESTABLISHED connection whose owning pid is absent. -/
def unknownEst : Conn :=
  ⟨"ESTABLISHED", none, some ⟨"10.0.0.1", 5555⟩, some ⟨"10.0.0.2", 80⟩⟩

/-- A LISTEN connection whose owning pid is absent. -/
def unknownListen : Conn := ⟨"LISTEN", none, some ⟨"0.0.0.0", 8080⟩, none⟩

/-- A process-name lookup that always fails. -/
def noLookup : Nat → Except PsFault String := fun _ => Except.error PsFault.noSuchProcess

theorem unknown_pid_included_witness :
    buildConnectionData noLookup (unknownEst :: []) =
      ⟨"Unknown", none, addrStr unknownEst.laddr, addrStr unknownEst.raddr,
        unknownEst.status⟩ :: buildConnectionData noLookup [] ∧
    (buildConnectionData noLookup (unknownEst :: [])).length =
      (buildConnectionData noLookup []).length + 1 ∧
    (∀ (data : List ConnData) (r : ConnData), r ∈ data → r.process = "Unknown" →
      ∃ kv ∈ groupByProcess data, kv.1 = "Unknown" ∧ r ∈ kv.2) ∧
    buildListening noLookup (unknownListen :: []) =
      (match buildListening noLookup [] with
       | Except.error e => Except.error e
       | Except.ok rest =>
         Except.ok (⟨"Unknown", none, (Addr.mk "0.0.0.0" 8080).port,
           (Addr.mk "0.0.0.0" 8080).ip⟩ :: rest)) :=
  unknown_pid_included noLookup unknownEst unknownListen [] [] ⟨"0.0.0.0", 8080⟩
    rfl rfl rfl rfl rfl

/-- A concrete inventory whose System Summary collaborator call fails while
every other collaborator call would succeed. -/
def invSysBad : Inventory :=
  ⟨Except.error "Permission denied", Except.ok ⟨1, 2, 3, 4, 0, 0⟩, Except.ok [],
   fun _ => Except.ok "proc", Except.ok []⟩

/-- C3 counterexample: with a failing System Summary, the remaining sections
(Interface Statistics, Listening Ports, Process Analysis, Recommendations) are
NOT produced — the whole report is aborted, refuting the claim that the
failure is fatal to that sub-operation only. -/
theorem system_summary_failure_counterexample :
    invSysBad.systemInfo = Except.error "Permission denied" ∧
    invSysBad.net_io_counters = Except.ok ⟨1, 2, 3, 4, 0, 0⟩ ∧
    mainFn invSysBad =
      ["\n🔍 SYSTEM SECURITY MONITOR\n", banner, "SYSTEM INFORMATION", banner,
       errorLine "Permission denied", hintLine] ∧
    "NETWORK STATISTICS" ∉ mainFn invSysBad ∧
    "LISTENING PORTS (Programs waiting for connections)" ∉ mainFn invSysBad ∧
    "RUNNING PROCESSES ANALYSIS" ∉ mainFn invSysBad ∧
    "RECOMMENDATIONS:" ∉ mainFn invSysBad := by
  refine ⟨rfl, rfl, rfl, ?_, ?_, ?_, ?_⟩ <;> decide

/-- C3 amended: if access to the inventory collaborator fails during the
System Summary sub-operation, the fault escapes to the top-level handler:
the banner already printed is followed by the error line and the
elevated-privileges hint, no further section is produced, and the run still
completes with this output. -/
theorem system_summary_failure_top_level (inv : Inventory) (e : String)
    (h : inv.systemInfo = Except.error e) :
    mainFn inv = "\n🔍 SYSTEM SECURITY MONITOR\n" ::
      ([banner, "SYSTEM INFORMATION", banner] ++ [errorLine e, hintLine]) := by
  simp [mainFn, runSections, seqPass, get_system_info, h]

theorem system_summary_failure_top_level_witness :
    mainFn invSysBad = "\n🔍 SYSTEM SECURITY MONITOR\n" ::
      ([banner, "SYSTEM INFORMATION", banner] ++
        [errorLine "Permission denied", hintLine]) :=
  system_summary_failure_top_level invSysBad "Permission denied" rfl

/-! ### No section ever prints a line of the recommendations block before the
recommendations step itself runs -/

theorem ne_of_head_ne (t s : String) (h : t.data.head? ≠ s.data.head?) : t ≠ s :=
  fun he => h (by rw [he])

theorem line_ne (p x t : String) (c : Char) (hc : p.data.head? = some c)
    (ht : t.data.head? ≠ some c) (hp : p.data ≠ []) : t ≠ p ++ x :=
  str_ne_append p x t hp (by rw [hc]; exact fun he => ht he.symm)

theorem not_in_get_system_info (inv : Inventory) (t : String)
    (hne : t ≠ "") (hni : t ≠ "SYSTEM INFORMATION")
    (hE : t.data.head? ≠ some '=') (hS : t.data.head? ≠ some 'S')
    (hM : t.data.head? ≠ some 'M') (hP : t.data.head? ≠ some 'P') :
    t ∉ (get_system_info inv).1 := by
  have hb : t ≠ banner :=
    ne_of_head_ne t banner (by rw [show banner.data.head? = some '=' from by decide]; exact hE)
  cases hsi : inv.systemInfo with
  | error e =>
    simp only [get_system_info, hsi]
    intro hmem
    simp only [List.mem_cons, List.not_mem_nil, or_false] at hmem
    rcases hmem with h | h | h
    · exact hb h
    · exact hni h
    · exact hb h
  | ok s =>
    simp only [get_system_info, hsi]
    intro hmem
    simp only [List.mem_append, List.mem_cons, List.not_mem_nil, or_false] at hmem
    rcases hmem with (h | h | h) | (h | h | h | h | h)
    · exact hb h
    · exact hni h
    · exact hb h
    · exact line_ne "System: " _ t 'S' (by decide) hS (by decide) h
    · exact line_ne "Machine: " _ t 'M' (by decide) hM (by decide) h
    · exact line_ne "Processor: " _ t 'P' (by decide) hP (by decide) h
    · exact line_ne "Scan Time: " _ t 'S' (by decide) hS (by decide) h
    · exact hne h

theorem not_in_get_network_stats (inv : Inventory) (t : String)
    (hne : t ≠ "") (hni : t ≠ "NETWORK STATISTICS")
    (hE : t.data.head? ≠ some '=') (hB : t.data.head? ≠ some 'B')
    (hP : t.data.head? ≠ some 'P') (hEr : t.data.head? ≠ some 'E') :
    t ∉ (get_network_stats inv).1 := by
  have hb : t ≠ banner :=
    ne_of_head_ne t banner (by rw [show banner.data.head? = some '=' from by decide]; exact hE)
  cases hsi : inv.net_io_counters with
  | error e =>
    simp only [get_network_stats, hsi]
    intro hmem
    simp only [List.mem_cons, List.not_mem_nil, or_false] at hmem
    rcases hmem with h | h | h
    · exact hb h
    · exact hni h
    · exact hb h
  | ok c =>
    simp only [get_network_stats, hsi]
    intro hmem
    simp only [List.mem_append, List.mem_cons, List.not_mem_nil, or_false] at hmem
    rcases hmem with (h | h | h) | (h | h | h | h | h | h | h)
    · exact hb h
    · exact hni h
    · exact hb h
    · exact line_ne "Bytes Sent:     " _ t 'B' (by decide) hB (by decide) h
    · exact line_ne "Bytes Received: " _ t 'B' (by decide) hB (by decide) h
    · exact line_ne "Packets Sent:   " _ t 'P' (by decide) hP (by decide) h
    · exact line_ne "Packets Recv:   " _ t 'P' (by decide) hP (by decide) h
    · exact line_ne "Errors In:      " _ t 'E' (by decide) hEr (by decide) h
    · exact line_ne "Errors Out:     " _ t 'E' (by decide) hEr (by decide) h
    · exact hne h

theorem not_in_groupLines (g : String × List ConnData) (t : String)
    (hNl : t.data.head? ≠ some '\n') (hSp : t.data.head? ≠ some ' ') :
    t ∉ groupLines g := by
  intro hmem
  rcases List.mem_cons.1 hmem with h | h
  · exact line_ne "\n[" _ t '\n' (by decide) hNl (by decide) h
  · rcases List.mem_append.1 h with h2 | h2
    · obtain ⟨c, _, hc⟩ := List.mem_map.1 h2
      exact line_ne "  Local: " _ t ' ' (by decide) hSp (by decide) hc.symm
    · by_cases h5 : 5 < g.2.length
      · rw [if_pos h5] at h2
        have ht : t = moreLine (g.2.length - 5) := by simpa using h2
        exact line_ne "  ... and " _ t ' ' (by decide) hSp (by decide) ht
      · rw [if_neg h5] at h2
        simp at h2

theorem not_in_monitor (inv : Inventory) (t : String)
    (hne : t ≠ "") (hni : t ≠ "ACTIVE NETWORK CONNECTIONS")
    (hE : t.data.head? ≠ some '=') (hNl : t.data.head? ≠ some '\n')
    (hSp : t.data.head? ≠ some ' ') :
    t ∉ (monitor_network_connections inv).1 := by
  have hb : t ≠ banner :=
    ne_of_head_ne t banner (by rw [show banner.data.head? = some '=' from by decide]; exact hE)
  cases hsi : inv.net_connections with
  | error e =>
    simp only [monitor_network_connections, hsi]
    intro hmem
    simp only [List.mem_cons, List.not_mem_nil, or_false] at hmem
    rcases hmem with h | h | h
    · exact hb h
    · exact hni h
    · exact hb h
  | ok conns =>
    simp only [monitor_network_connections, hsi]
    intro hmem
    simp only [List.mem_append, List.mem_cons, List.not_mem_nil, or_false] at hmem
    rcases hmem with (h | h | h) | (h | (h | h))
    · exact hb h
    · exact hni h
    · exact hb h
    · obtain ⟨g, _, hg⟩ := List.mem_flatMap.1 h
      exact not_in_groupLines g t hNl hSp hg
    · exact line_ne "\nTotal active connections: " _ t '\n' (by decide) hNl (by decide) h
    · exact hne h

theorem not_in_listening (inv : Inventory) (t : String)
    (hne : t ≠ "") (hni : t ≠ "LISTENING PORTS (Programs waiting for connections)")
    (hE : t.data.head? ≠ some '=') (hNl : t.data.head? ≠ some '\n')
    (hP : t.data.head? ≠ some 'P') :
    t ∉ (check_listening_ports inv).1 := by
  have hb : t ≠ banner :=
    ne_of_head_ne t banner (by rw [show banner.data.head? = some '=' from by decide]; exact hE)
  cases hsi : inv.net_connections with
  | error e =>
    simp only [check_listening_ports, hsi]
    intro hmem
    simp only [List.mem_cons, List.not_mem_nil, or_false] at hmem
    rcases hmem with h | h | h
    · exact hb h
    · exact hni h
    · exact hb h
  | ok conns =>
    cases hbl : buildListening inv.processLookup conns with
    | error e =>
      simp only [check_listening_ports, hsi, hbl]
      intro hmem
      simp only [List.mem_cons, List.not_mem_nil, or_false] at hmem
      rcases hmem with h | h | h
      · exact hb h
      · exact hni h
      · exact hb h
    | ok listening =>
      simp only [check_listening_ports, hsi, hbl]
      intro hmem
      simp only [List.mem_append, List.mem_cons, List.not_mem_nil, or_false] at hmem
      rcases hmem with (h | h | h) | (h | (h | h))
      · exact hb h
      · exact hni h
      · exact hb h
      · obtain ⟨en, _, he⟩ := List.mem_map.1 h
        exact line_ne "Port " _ t 'P' (by decide) hP (by decide) he.symm
      · exact line_ne "\nTotal listening ports: " _ t '\n' (by decide) hNl (by decide) h
      · exact hne h

theorem not_in_suspiciousLines (ss : List PInfo) (t : String)
    (hNl : t.data.head? ≠ some '\n') (hSp : t.data.head? ≠ some ' ') :
    t ∉ suspiciousLines ss := by
  unfold suspiciousLines
  split
  · intro hmem
    have h : t = "\n✓ No obviously suspicious process names detected" := by simpa using hmem
    exact ne_of_head_ne t _ (by rw [show ("\n✓ No obviously suspicious process names detected").data.head? = some '\n' from by decide]; exact hNl) h
  · intro hmem
    rcases List.mem_cons.1 hmem with h | h
    · exact ne_of_head_ne t _ (by rw [show ("\n⚠️  SUSPICIOUS PROCESS NAMES DETECTED:").data.head? = some '\n' from by decide]; exact hNl) h
    · obtain ⟨p, _, hp⟩ := List.mem_map.1 h
      exact line_ne "  - " _ t ' ' (by decide) hSp (by decide) hp.symm

theorem not_in_highNetLines (hs : List HighNetEntry) (t : String)
    (hNl : t.data.head? ≠ some '\n') (hSp : t.data.head? ≠ some ' ') :
    t ∉ highNetLines hs := by
  unfold highNetLines
  split
  · simp
  · intro hmem
    rcases List.mem_cons.1 hmem with h | h
    · exact ne_of_head_ne t _ (by rw [show ("\n📊 HIGH NETWORK USAGE PROCESSES:").data.head? = some '\n' from by decide]; exact hNl) h
    · obtain ⟨hn, _, hh⟩ := List.mem_flatMap.1 h
      rcases List.mem_cons.1 hh with h2 | h2
      · exact line_ne "  - " _ t ' ' (by decide) hSp (by decide) h2
      · have h3 : t = highStatsLine hn := by simpa using h2
        exact line_ne "    Read: " _ t ' ' (by decide) hSp (by decide) h3

theorem not_in_suspicious_pass (inv : Inventory) (t : String)
    (hne : t ≠ "") (hni : t ≠ "RUNNING PROCESSES ANALYSIS")
    (hE : t.data.head? ≠ some '=') (hNl : t.data.head? ≠ some '\n')
    (hSp : t.data.head? ≠ some ' ') :
    t ∉ (check_suspicious_processes inv).1 := by
  have hb : t ≠ banner :=
    ne_of_head_ne t banner (by rw [show banner.data.head? = some '=' from by decide]; exact hE)
  cases hsi : inv.process_iter with
  | error e =>
    simp only [check_suspicious_processes, hsi]
    intro hmem
    simp only [List.mem_cons, List.not_mem_nil, or_false] at hmem
    rcases hmem with h | h | h
    · exact hb h
    · exact hni h
    · exact hb h
  | ok ps =>
    simp only [check_suspicious_processes, hsi]
    intro hmem
    simp only [List.mem_append, List.mem_cons, List.not_mem_nil, or_false] at hmem
    rcases hmem with (h | h | h) | (h | (h | h))
    · exact hb h
    · exact hni h
    · exact hb h
    · exact not_in_suspiciousLines _ t hNl hSp h
    · exact not_in_highNetLines _ t hNl hSp h
    · exact hne h

theorem seqPass_fault (a b : List String × Option String) (e : String) (t : String)
    (h : (seqPass a b).2 = some e) (ht : t ∈ (seqPass a b).1) :
    t ∈ a.1 ∨ (b.2 = some e ∧ t ∈ b.1) := by
  rcases a with ⟨la, oa⟩
  cases oa with
  | some ea =>
    simp only [seqPass] at ht
    exact Or.inl ht
  | none =>
    simp only [seqPass] at ht h
    rcases List.mem_append.1 ht with hl | hr
    · exact Or.inl hl
    · exact Or.inr ⟨h, hr⟩

theorem runSections_fault_mem (inv : Inventory) (e : String) (t : String)
    (h : (runSections inv).2 = some e) (ht : t ∈ (runSections inv).1) :
    t ∈ (get_system_info inv).1 ∨ t ∈ (get_network_stats inv).1 ∨
    t ∈ (monitor_network_connections inv).1 ∨ t ∈ (check_listening_ports inv).1 ∨
    t ∈ (check_suspicious_processes inv).1 := by
  unfold runSections at h ht
  rcases seqPass_fault _ _ e t h ht with h1 | ⟨h, ht⟩
  · exact Or.inl h1
  rcases seqPass_fault _ _ e t h ht with h2 | ⟨h, ht⟩
  · exact Or.inr (Or.inl h2)
  rcases seqPass_fault _ _ e t h ht with h3 | ⟨h, ht⟩
  · exact Or.inr (Or.inr (Or.inl h3))
  rcases seqPass_fault _ _ e t h ht with h4 | ⟨h, ht⟩
  · exact Or.inr (Or.inr (Or.inr (Or.inl h4)))
  rcases seqPass_fault _ _ e t h ht with h5 | ⟨h, ht⟩
  · exact Or.inr (Or.inr (Or.inr (Or.inr h5)))
  · simp at h

/-- C2: an unexpected fault in any of the five report passes is caught once
at the top level: the output is the intro line, the lines printed up to the
fault, then a single error line and the elevated-privileges hint; no further
section is printed — in particular no line of the Recommendations block —
and `mainFn` still returns this output (the entry point completes normally). -/
theorem top_level_catch (inv : Inventory) (e : String)
    (h : (runSections inv).2 = some e) :
    mainFn inv = "\n🔍 SYSTEM SECURITY MONITOR\n" ::
      ((runSections inv).1 ++ [errorLine e, hintLine]) ∧
    "RECOMMENDATIONS:" ∉ mainFn inv ∧
    "1. Review any suspicious process names or unfamiliar programs" ∉ mainFn inv := by
  have hmain : mainFn inv = "\n🔍 SYSTEM SECURITY MONITOR\n" ::
      ((runSections inv).1 ++ [errorLine e, hintLine]) := by
    unfold mainFn
    rcases hrs : runSections inv with ⟨ls, o⟩
    rw [hrs] at h
    simp only at h
    rw [h]
  have habsent : ∀ t : String, t ≠ "\n🔍 SYSTEM SECURITY MONITOR\n" → t ≠ "" →
      t ≠ "SYSTEM INFORMATION" → t ≠ "NETWORK STATISTICS" →
      t ≠ "ACTIVE NETWORK CONNECTIONS" →
      t ≠ "LISTENING PORTS (Programs waiting for connections)" →
      t ≠ "RUNNING PROCESSES ANALYSIS" → t ≠ hintLine →
      t.data.head? ≠ some '=' → t.data.head? ≠ some 'S' → t.data.head? ≠ some 'M' →
      t.data.head? ≠ some 'P' → t.data.head? ≠ some 'B' → t.data.head? ≠ some 'E' →
      t.data.head? ≠ some '\n' → t.data.head? ≠ some ' ' → t ∉ mainFn inv := by
    intro t hIntro hne hT1 hT2 hT3 hT4 hT5 hHint hcE hcS hcM hcP hcB hcEr hcNl hcSp hmem
    rw [hmain] at hmem
    rcases List.mem_cons.1 hmem with h0 | h0
    · exact hIntro h0
    rcases List.mem_append.1 h0 with hsec | htail
    · rcases runSections_fault_mem inv e t h hsec with h1 | h1 | h1 | h1 | h1
      · exact not_in_get_system_info inv t hne hT1 hcE hcS hcM hcP h1
      · exact not_in_get_network_stats inv t hne hT2 hcE hcB hcP hcEr h1
      · exact not_in_monitor inv t hne hT3 hcE hcNl hcSp h1
      · exact not_in_listening inv t hne hT4 hcE hcNl hcP h1
      · exact not_in_suspicious_pass inv t hne hT5 hcE hcNl hcSp h1
    · rcases List.mem_cons.1 htail with h2 | h2
      · exact line_ne "\n❌ Error during monitoring: " _ t '\n' (by decide) hcNl (by decide) h2
      · have h3 : t = hintLine := by simpa using h2
        exact hHint h3
  refine ⟨hmain, ?_, ?_⟩
  · exact habsent "RECOMMENDATIONS:" (by decide) (by decide) (by decide) (by decide)
      (by decide) (by decide) (by decide) (by decide) (by decide) (by decide) (by decide)
      (by decide) (by decide) (by decide) (by decide) (by decide)
  · exact habsent "1. Review any suspicious process names or unfamiliar programs" (by decide)
      (by decide) (by decide) (by decide) (by decide) (by decide) (by decide) (by decide)
      (by decide) (by decide) (by decide) (by decide) (by decide) (by decide) (by decide)
      (by decide)

/-- A concrete inventory whose process enumeration throws during the Process
Analysis pass, with all earlier collaborator calls succeeding. -/
def invPABad : Inventory :=
  ⟨Except.ok ⟨"Linux", "6.1", "x86_64", "GenuineIntel", "2026-10-12 00:00:00"⟩,
   Except.ok ⟨1, 2, 3, 4, 0, 0⟩, Except.ok [], fun _ => Except.ok "proc",
   Except.error "boom"⟩

unseal List.merge List.mergeSort in
theorem top_level_catch_witness :
    mainFn invPABad = "\n🔍 SYSTEM SECURITY MONITOR\n" ::
      ((runSections invPABad).1 ++ [errorLine "boom", hintLine]) ∧
    "RECOMMENDATIONS:" ∉ mainFn invPABad ∧
    "1. Review any suspicious process names or unfamiliar programs" ∉ mainFn invPABad :=
  top_level_catch invPABad "boom" (by decide)
